import Mathlib

/-
  Verification development for the rich-document-to-HTML converter of the
  HR-Google-Sheet repository (EmailHelpers).  JavaScript strings are modelled
  as `List Char`; each definition below is a direct shallow embedding of the
  correspondingly named function of the source file.
-/

namespace HRDoc

/-- Shorthand turning a Lean string literal into the `List Char` model of a
JavaScript string. -/
def str (s : String) : List Char := s.toList

/-- The ampersand character. -/
def ampChar : Char := Char.ofNat 38

/-- The less-than character. -/
def ltChar : Char := Char.ofNat 60

/-- The greater-than character. -/
def gtChar : Char := Char.ofNat 62

/-- The double-quote character. -/
def quotChar : Char := Char.ofNat 34

/-- The apostrophe (single-quote) character. -/
def aposChar : Char := Char.ofNat 39

/-- The non-breaking-space character (U+00A0). -/
def nbspChar : Char := Char.ofNat 160

/-- Model of the JavaScript call `s.replace(/c/g, r)` for a single-character
pattern `c`: every occurrence of the character is replaced by the string `r`. -/
def replaceAll (c : Char) (r : List Char) (s : List Char) : List Char :=
  (s.map (fun ch => if ch = c then r else [ch])).flatten

/-- Shallow embedding of the string path of `escapeHtml` (EmailHelpers).
The source chains five global single-character replacements, in this order:
ampersand, less-than, greater-than, double-quote, single-quote.  The
replacement strings in the source are the matched characters themselves for
ampersand, less-than, greater-than and single-quote, and the five-character
string ampersand-q-u-o-t (no trailing semicolon) for the double quote. -/
def escapeHtml (s : List Char) : List Char :=
  replaceAll aposChar [aposChar]
    (replaceAll quotChar (str "&quot")
      (replaceAll gtChar [gtChar]
        (replaceAll ltChar [ltChar]
          (replaceAll ampChar [ampChar] s))))

/-- A JavaScript runtime value, as far as `escapeHtml` can observe it through
`typeof`. -/
inductive JsValue where
  | string : List Char → JsValue
  | number : Int → JsValue
  | boolean : Bool → JsValue
  | null : JsValue
  | undefined : JsValue
deriving DecidableEq

/-- Shallow embedding of the whole of `escapeHtml`, including the
`typeof unsafe !== "string"` guard.  For a non-string argument the source
logs a warning and returns the argument unchanged; the Boolean component
records whether that warning branch was taken. -/
def escapeHtmlJs : JsValue → JsValue × Bool
  | JsValue.string s => (JsValue.string (escapeHtml s), false)
  | v => (v, true)

/-- Model of the ECMAScript `String.prototype.substring(a, b)` call on a
string modelled as `List Char`: both indices are clamped into `[0, length]`
and swapped if out of order, then the characters of the half-open interval
are returned. -/
def jsSubstring (s : List Char) (a b : Int) : List Char :=
  let len : Int := (s.length : Int)
  let ia := min (max a 0) len
  let ib := min (max b 0) len
  (s.take (max ia ib).toNat).drop (min ia ib).toNat

/-- Vertical text alignment values of the document platform. -/
inductive VerticalAlign where
  | superscript : VerticalAlign
  | subscript : VerticalAlign
  | normal : VerticalAlign
deriving DecidableEq

/-- The formatting-attribute map returned by `getAttributes(offset)` for a
text element, one optional field per attribute key the converter reads.
A missing attribute is `none` (JavaScript `null`); the Boolean attributes
collapse `null` and `false`, which the source only ever distinguishes by
truthiness. -/
structure TextAttrs where
  linkUrl : Option (List Char) := none
  underline : Bool := false
  strikethrough : Bool := false
  italic : Bool := false
  bold : Bool := false
  foregroundColor : Option (List Char) := none
  backgroundColor : Option (List Char) := none
  fontSize : Option Int := none
  fontFamily : Option (List Char) := none
  verticalOffset : Option VerticalAlign := none

/-- A text element: its full string, the attribute-change boundary offsets
reported by `getTextAttributeIndices()`, and the attribute map reported by
`getAttributes(offset)` at each offset. -/
structure TextElement where
  text : List Char
  attrIndices : List Int
  attrsAt : Int → TextAttrs

/-- JavaScript truthiness of an optional string attribute: absent and the
empty string are falsy. -/
def jsTruthyStr : Option (List Char) → Bool
  | some s => !s.isEmpty
  | none => false

/-- JavaScript truthiness of an optional numeric attribute: absent and zero
are falsy. -/
def jsTruthyNum : Option Int → Bool
  | some n => n != 0
  | none => false

/-- One conditional tag-wrapping step of `processTextSegment`:
`if (cond) html = pre + html + post;`. -/
def wrapIf (c : Bool) (pre post h : List Char) : List Char :=
  if c then pre ++ h ++ post else h

/-- Model of the host-environment check `DocumentApp.VerticalTextAlignment`:
in the Apps Script runtime the enum object exists, so the check is truthy. -/
def verticalTextAlignmentDefined : Bool := true

/-- The superscript/subscript wrapping step of `processTextSegment`.  The
source guards on the host enum being defined and the vertical-offset
attribute being truthy, then compares against the superscript and subscript
enum values. -/
def vertWrap (vo : Option VerticalAlign) (h : List Char) : List Char :=
  if verticalTextAlignmentDefined && vo.isSome then
    match vo with
    | some VerticalAlign.superscript => str "<sup>" ++ h ++ str "</sup>"
    | some VerticalAlign.subscript => str "<sub>" ++ h ++ str "</sub>"
    | _ => h
  else h

/-- The span-level style list of `processTextSegment`: foreground color
(omitted when pure black), background color (omitted when pure white),
font size in points, font family (omitted when Arial), in this order.
Each guard is the JavaScript truthiness test of the source. -/
def spanStylesOf (st : TextAttrs) : List (List Char) :=
  (if jsTruthyStr st.foregroundColor && st.foregroundColor != some (str "#000000") then
      [str "color: " ++ st.foregroundColor.getD []]
    else []) ++
  (if jsTruthyStr st.backgroundColor && st.backgroundColor != some (str "#ffffff") then
      [str "background-color: " ++ st.backgroundColor.getD []]
    else []) ++
  (if jsTruthyNum st.fontSize then
      [str "font-size: " ++ str (toString (st.fontSize.getD 0)) ++ str "pt"]
    else []) ++
  (if jsTruthyStr st.fontFamily && st.fontFamily != some (str "Arial") then
      [str "font-family: \"" ++ st.fontFamily.getD [] ++ str "\""]
    else [])

/-- The final `<span style="...">` wrapping step of `processTextSegment`,
applied only when the style list is non-empty. -/
def spanWrap (styles : List (List Char)) (h : List Char) : List Char :=
  if styles.length > 0 then
    str "<span style=\"" ++ List.intercalate (str "; ") styles ++ str "\">" ++ h ++ str "</span>"
  else h

/-- Shallow embedding of `processTextSegment(textElement, start, end)`
(EmailHelpers): guard out degenerate ranges, slice the segment with
`substring`, read the attributes at the segment start, escape the text, then
wrap conditionally with anchor, underline, strikethrough, italic, bold (in
that application order, so the anchor ends up innermost), then the
superscript/subscript wrap, then the optional style span. -/
def processTextSegment (te : TextElement) (start stop : Int) : List Char :=
  if start ≥ stop then []
  else
    let segmentText := jsSubstring te.text start stop
    let style := te.attrsAt start
    let h0 := escapeHtml segmentText
    let h1 := wrapIf (jsTruthyStr style.linkUrl)
      (str "<a href=\"" ++ style.linkUrl.getD [] ++ str "\">") (str "</a>") h0
    let h2 := wrapIf style.underline (str "<u>") (str "</u>") h1
    let h3 := wrapIf style.strikethrough (str "<s>") (str "</s>") h2
    let h4 := wrapIf style.italic (str "<em>") (str "</em>") h3
    let h5 := wrapIf style.bold (str "<strong>") (str "</strong>") h4
    let h6 := vertWrap style.verticalOffset h5
    spanWrap (spanStylesOf style) h6

/-- The loop body of `convertTextToHtml`: one `processTextSegment` call per
boundary offset, threading `lastIndex`, plus the final trailing segment up to
the end of the string. -/
def convertTextLoop (te : TextElement) : List Int → Int → List Char
  | [], lastIndex => processTextSegment te lastIndex (te.text.length : Int)
  | i :: rest, lastIndex => processTextSegment te lastIndex i ++ convertTextLoop te rest i

/-- Shallow embedding of `convertTextToHtml(textElement)` (EmailHelpers):
empty text yields the empty string, otherwise the string is processed segment
by segment at the attribute-change boundaries. -/
def convertTextToHtml (te : TextElement) : List Char :=
  if te.text = [] then [] else convertTextLoop te te.attrIndices 0

/-- The pre-escaping text of one segment, exactly as `processTextSegment`
takes it: nothing for a degenerate range, otherwise the `substring` slice. -/
def segmentTextOf (s : List Char) (a b : Int) : List Char :=
  if a ≥ b then [] else jsSubstring s a b

/-- The list of pre-escaping segment texts taken by `convertTextToHtml`:
the `[lastBoundary, boundary)` slices, one per boundary offset, plus the
final trailing slice to the end of the string.  Mirrors the recursion of
`convertTextLoop` with the rendering replaced by the raw slice. -/
def segmentSlices (s : List Char) : List Int → Int → List (List Char)
  | [], lastIndex => [segmentTextOf s lastIndex (s.length : Int)]
  | i :: rest, lastIndex => segmentTextOf s lastIndex i :: segmentSlices s rest i

/-- The glyph kinds of the document platform that the converter recognizes,
plus `other` standing for any unrecognized glyph value. -/
inductive GlyphType where
  | bullet : GlyphType
  | hollowBullet : GlyphType
  | squareBullet : GlyphType
  | number : GlyphType
  | latinLower : GlyphType
  | latinUpper : GlyphType
  | romanLower : GlyphType
  | romanUpper : GlyphType
  | other : GlyphType
deriving DecidableEq

/-- The container-tag choice of `processListItem`: the three bullet glyphs
map to `ul`, everything else to `ol`. -/
def listTagOf : GlyphType → List Char
  | GlyphType.bullet => str "ul"
  | GlyphType.hollowBullet => str "ul"
  | GlyphType.squareBullet => str "ul"
  | _ => str "ol"

/-- The same ternary applied to a possibly-null glyph (the source evaluates
it on `prevType`/`nextType`, which are `null` when the sibling is not a list
item, and `null` compares unequal to every bullet enum, giving `ol`). -/
def listTagOfOpt : Option GlyphType → List Char
  | some g => listTagOf g
  | none => str "ol"

/-- Shallow embedding of `getGlyphStyle` (EmailHelpers): the fixed glyph to
CSS `list-style-type` table, defaulting to `disc`. -/
def getGlyphStyle : GlyphType → List Char
  | GlyphType.bullet => str "disc"
  | GlyphType.hollowBullet => str "circle"
  | GlyphType.squareBullet => str "square"
  | GlyphType.number => str "decimal"
  | GlyphType.latinLower => str "lower-latin"
  | GlyphType.latinUpper => str "upper-latin"
  | GlyphType.romanLower => str "lower-roman"
  | GlyphType.romanUpper => str "upper-roman"
  | GlyphType.other => str "disc"

/-- Paragraph heading levels; `other` stands for any value outside
NORMAL/HEADING1..6 (for example TITLE or SUBTITLE). -/
inductive ParagraphHeading where
  | normal : ParagraphHeading
  | heading1 : ParagraphHeading
  | heading2 : ParagraphHeading
  | heading3 : ParagraphHeading
  | heading4 : ParagraphHeading
  | heading5 : ParagraphHeading
  | heading6 : ParagraphHeading
  | other : ParagraphHeading
deriving DecidableEq

/-- Horizontal alignment values. -/
inductive Alignment where
  | left : Alignment
  | center : Alignment
  | right : Alignment
  | justify : Alignment
deriving DecidableEq

/-- Inline children of a paragraph: text elements, inline images, or any
other inline kind (which the converter ignores). -/
inductive InlineElement where
  | textRun : TextElement → InlineElement
  | inlineImage : InlineElement
  | otherInline : InlineElement

/-- A paragraph-like node: heading level, paragraph-level style metadata and
ordered inline children.  Numeric measurements are modelled as integers. -/
structure ParagraphData where
  heading : ParagraphHeading := ParagraphHeading.normal
  alignment : Option Alignment := none
  lineSpacing : Option Int := none
  indentStart : Option Int := none
  indentEnd : Option Int := none
  indentFirstLine : Option Int := none
  children : List InlineElement := []

/-- The text contributed by one inline child to `getText()`. -/
def inlineText : InlineElement → List Char
  | InlineElement.textRun te => te.text
  | _ => []

/-- Model of `paragraph.getText()`: the concatenated text of the inline
children. -/
def paragraphText (p : ParagraphData) : List Char :=
  (p.children.map inlineText).flatten

/-- The HTML rendered for one inline child of a paragraph: text elements go
through `convertTextToHtml`, inline images render as the fixed placeholder,
other kinds produce nothing. -/
def convertInlineChild : InlineElement → List Char
  | InlineElement.textRun te => convertTextToHtml te
  | InlineElement.inlineImage => str "[Image]"
  | InlineElement.otherInline => []

/-- Shallow embedding of `convertParagraphToHtml` (EmailHelpers): an empty
paragraph renders as the single non-breaking-space character, otherwise the
inline children are rendered in order. -/
def convertParagraphToHtml (p : ParagraphData) : List Char :=
  if paragraphText p = [] then [nbspChar]
  else (p.children.map convertInlineChild).flatten

/-- Shallow embedding of `getHeadingTag` (EmailHelpers). -/
def getHeadingTag (p : ParagraphData) : Option (List Char) :=
  match p.heading with
  | ParagraphHeading.heading1 => some (str "h1")
  | ParagraphHeading.heading2 => some (str "h2")
  | ParagraphHeading.heading3 => some (str "h3")
  | ParagraphHeading.heading4 => some (str "h4")
  | ParagraphHeading.heading5 => some (str "h5")
  | ParagraphHeading.heading6 => some (str "h6")
  | _ => none

/-- Shallow embedding of `getParagraphStyle` (EmailHelpers): the fixed
default margin and padding, then alignment, heading boldness, line height and
the three indentation measurements, joined with a semicolon separator. -/
def getParagraphStyle (p : ParagraphData) : List Char :=
  List.intercalate (str "; ")
    ([str "margin: 0.5em 0", str "padding: 0"] ++
     (match p.alignment with
      | some Alignment.center => [str "text-align: center"]
      | some Alignment.right => [str "text-align: right"]
      | some Alignment.justify => [str "text-align: justify"]
      | _ => []) ++
     (if p.heading ≠ ParagraphHeading.normal then [str "font-weight: bold"] else []) ++
     (if jsTruthyNum p.lineSpacing then
        [str "line-height: " ++ str (toString (p.lineSpacing.getD 0))] else []) ++
     (if jsTruthyNum p.indentStart then
        [str "padding-left: " ++ str (toString (p.indentStart.getD 0)) ++ str "pt"] else []) ++
     (if jsTruthyNum p.indentEnd then
        [str "padding-right: " ++ str (toString (p.indentEnd.getD 0)) ++ str "pt"] else []) ++
     (if jsTruthyNum p.indentFirstLine then
        [str "text-indent: " ++ str (toString (p.indentFirstLine.getD 0)) ++ str "pt"] else []))

/-- Model of `String.prototype.trim()`. -/
def jsTrim (s : List Char) : List Char :=
  ((s.dropWhile Char.isWhitespace).reverse.dropWhile Char.isWhitespace).reverse

mutual
/-- A top-level block element of a document body (or of a table cell):
paragraph, list item (content, nesting level, glyph kind), table, or any
other element kind (with the text that `getText()` would report for it). -/
inductive Element where
  | paragraph : ParagraphData → Element
  | listItem : ParagraphData → Int → GlyphType → Element
  | table : List TableRow → Element
  | unsupported : List Char → Element

/-- A table row. -/
inductive TableRow where
  | mk : List TableCell → TableRow

/-- A table cell, containing block elements. -/
inductive TableCell where
  | mk : List Element → TableCell
end

/-- The nesting level and glyph of a sibling, when that sibling exists and is
a list item (`getPreviousSibling()` / `getNextSibling()` inspection). -/
def listItemInfo : Option Element → Option (Int × GlyphType)
  | some (Element.listItem _ n g) => some (n, g)
  | _ => none

/-- Shallow embedding of `processListItem` (EmailHelpers).  The previous and
next siblings of the item in the document tree are passed explicitly.
Mirrors the source exactly: a container is opened when the previous sibling
is not a list item, is nested shallower, or maps to a different container tag
at the same level (in the last case the previous container tag is closed
first); the `li` is emitted; a container is closed when the next sibling is
absent, nested shallower, or maps to a different container tag at the same
level; finally one extra close per skipped level is emitted when the next
sibling is a list item nested more than one level shallower. -/
def processListItem (prev : Option Element) (content : ParagraphData)
    (nesting : Int) (glyph : GlyphType) (next : Option Element) : List Char :=
  let listTag := listTagOf glyph
  let isPrevListItem := (listItemInfo prev).isSome
  let prevNesting : Int := match listItemInfo prev with | some (n, _) => n | none => -1
  let prevType : Option GlyphType := match listItemInfo prev with | some (_, g) => some g | none => none
  let prevListTag := listTagOfOpt prevType
  let openPart :=
    if isPrevListItem = false ∨ prevNesting < nesting ∨ (prevNesting = nesting ∧ listTag ≠ prevListTag) then
      (if isPrevListItem = true ∧ prevNesting = nesting ∧ listTag ≠ prevListTag then
         str "</" ++ prevListTag ++ str ">"
       else []) ++
      (str "<" ++ listTag ++ str " style=\"margin-left: " ++ str (toString (nesting * 20)) ++
        str "px; list-style-type: " ++ getGlyphStyle glyph ++ str ";\">")
    else []
  let liPart := str "<li style=\"margin-bottom: 0.5em;\">" ++ convertParagraphToHtml content ++ str "</li>"
  let isNextListItem := (listItemInfo next).isSome
  let nextNesting : Int := match listItemInfo next with | some (n, _) => n | none => -1
  let nextType : Option GlyphType := match listItemInfo next with | some (_, g) => some g | none => none
  let nextListTag := listTagOfOpt nextType
  let closePart :=
    if isNextListItem = false ∨ nextNesting < nesting ∨ (nextNesting = nesting ∧ listTag ≠ nextListTag) then
      str "</" ++ listTag ++ str ">"
    else []
  let extraClose :=
    if isNextListItem = true ∧ nextNesting < nesting - 1 then
      (List.replicate (nesting - 1 - nextNesting).toNat (str "</" ++ listTag ++ str ">")).flatten
    else []
  openPart ++ liPart ++ closePart ++ extraClose

mutual
/-- Shallow embedding of `convertTableToHtml` (EmailHelpers). -/
def convertTableToHtml (rows : List TableRow) : List Char :=
  str "<table border=\"1\" style=\"border-collapse: collapse; width: 100%;\">" ++
    convertTableRows rows 0 ++ str "</table>"

/-- The row loop of `convertTableToHtml`, carrying the row index. -/
def convertTableRows : List TableRow → Nat → List Char
  | [], _ => []
  | TableRow.mk cells :: rest, i =>
    str "<tr>" ++ convertTableCells cells i ++ str "</tr>" ++ convertTableRows rest (i + 1)

/-- The cell loop of one table row: cells of the first row use `th`, others
`td`; the cell style string is empty. -/
def convertTableCells : List TableCell → Nat → List Char
  | [], _ => []
  | TableCell.mk children :: rest, i =>
    (if i = 0 then
       str "<th style=\"\">" ++ convertCellChildren none children ++ str "</th>"
     else
       str "<td style=\"\">" ++ convertCellChildren none children ++ str "</td>") ++
    convertTableCells rest i

/-- The block-child loop of one table cell, tracking the previous sibling:
paragraphs render in a styled `div`, list items go through
`processListItem`, nested tables recurse, and any other kind falls back to
its raw text. -/
def convertCellChildren : Option Element → List Element → List Char
  | _, [] => []
  | prev, e :: rest =>
    (match e with
     | Element.paragraph p =>
       str "<div style=\"" ++ getParagraphStyle p ++ str "\">" ++ convertParagraphToHtml p ++ str "</div>"
     | Element.listItem c n g => processListItem prev c n g rest.head?
     | Element.table rs => convertTableToHtml rs
     | Element.unsupported t => t) ++
    convertCellChildren (some e) rest
end

/-- The body walk of `convertBodyToHtml` (EmailHelpers), tracking the
previous sibling and the bounded recently-seen-text set used to suppress
duplicate list items: a list item whose trimmed text is already in the set is
skipped entirely; otherwise it is rendered and its text recorded, and the set
is cleared wholesale once its size exceeds 100. -/
def convertBodyAux : Option Element → List Element → List (List Char) → List Char
  | _, [], _ => []
  | prev, e :: rest, seen =>
    match e with
    | Element.paragraph p =>
      (match getHeadingTag p with
       | some tag =>
         str "\n<div class=\"section\" style=\"margin-left: 0 !important;\">\n            <" ++ tag ++
           str " style=\"" ++ getParagraphStyle p ++ str "\">" ++ convertParagraphToHtml p ++
           str "</" ++ tag ++ str ">\n          </div>\n"
       | none =>
         str "<p style=\"" ++ getParagraphStyle p ++ str "\">" ++ convertParagraphToHtml p ++ str "</p>") ++
      convertBodyAux (some e) rest seen
    | Element.listItem c n g =>
      let itemText := jsTrim (paragraphText c)
      if seen.contains itemText then convertBodyAux (some e) rest seen
      else
        processListItem prev c n g rest.head? ++
          convertBodyAux (some e) rest
            (if (seen ++ [itemText]).length > 100 then [] else seen ++ [itemText])
    | Element.table rows => convertTableToHtml rows ++ convertBodyAux (some e) rest seen
    | Element.unsupported _ => convertBodyAux (some e) rest seen

/-- Shallow embedding of `convertBodyToHtml` (EmailHelpers): walk the body
elements in order with no previous sibling and an empty recently-seen set. -/
def convertBodyToHtml (body : List Element) : List Char :=
  convertBodyAux none body []

/-- The bullet-family test of `processListItem`: the disjunction
`type === BULLET || type === HOLLOW_BULLET || type === SQUARE_BULLET`. -/
def isBulletFamily : GlyphType → Bool
  | GlyphType.bullet => true
  | GlyphType.hollowBullet => true
  | GlyphType.squareBullet => true
  | _ => false

/-- The ordinal glyph family: the five numbered glyph kinds. -/
def isOrdinalFamily : GlyphType → Bool
  | GlyphType.number => true
  | GlyphType.latinLower => true
  | GlyphType.latinUpper => true
  | GlyphType.romanLower => true
  | GlyphType.romanUpper => true
  | _ => false

/-- Number of occurrences of `pat` as a contiguous substring of `s`
(start positions counted). -/
def countSub (pat s : List Char) : Nat :=
  ((List.range (s.length + 1)).filter (fun i => pat.isPrefixOf (s.drop i))).length

/-- A plain paragraph whose single text child carries the given string with
no formatting. -/
def mkPara (t : String) : ParagraphData :=
  { children := [InlineElement.textRun { text := str t, attrIndices := [], attrsAt := fun _ => {} }] }

/-- The text run of the spec example: the one-character string with bold,
italic and a link URL set, and nothing else. -/
def runX : TextElement :=
  { text := str "x", attrIndices := [],
    attrsAt := fun _ => { bold := true, italic := true, linkUrl := some (str "http://u") } }

/-- A text run whose link URL contains a double-quote character. -/
def quoteRun : TextElement :=
  { text := str "y", attrIndices := [],
    attrsAt := fun _ => ({ linkUrl := some (str "http://u\"v") } : TextAttrs) }

/-- A text element carrying a malformed boundary list: out-of-range and
non-monotonic offsets. -/
def junkRun : TextElement :=
  { text := str "abc", attrIndices := [7, -3, 2, 2], attrsAt := fun _ => {} }

/-- A body of three sibling level-0 bullet list items that all carry the same
text. -/
def threeDupBody : List Element :=
  [Element.listItem (mkPara "a") 0 GlyphType.bullet,
   Element.listItem (mkPara "a") 0 GlyphType.bullet,
   Element.listItem (mkPara "a") 0 GlyphType.bullet]

/-! Helper lemmas. -/

theorem str_append (a b : String) : str a ++ str b = str (a ++ b) := by
  simp [str, String.toList]

theorem str_append_assoc (a b : String) (l : List Char) :
    str a ++ (str b ++ l) = str (a ++ b) ++ l := by
  simp [str, String.toList]

theorem intZero_toString : toString (0 : Int) = "0" := rfl

theorem ul_ne_ol : str "ul" ≠ str "ol" := by decide

theorem ol_ne_ul : str "ol" ≠ str "ul" := by decide

theorem listTag_of_bullet (g : GlyphType) (h : isBulletFamily g = true) :
    listTagOf g = str "ul" := by
  cases g <;> first | rfl | exact absurd h (by decide)

theorem listTag_of_ordinal (g : GlyphType) (h : isOrdinalFamily g = true) :
    listTagOf g = str "ol" := by
  cases g <;> first | rfl | exact absurd h (by decide)

theorem jsSubstring_of_le (s : List Char) (a b : Int) (h0 : 0 ≤ a) (hab : a ≤ b)
    (hb : b ≤ (s.length : Int)) :
    jsSubstring s a b = (s.take b.toNat).drop a.toNat := by
  simp only [jsSubstring]
  have e1 : min (max a 0) (s.length : Int) = a := by omega
  have e2 : min (max b 0) (s.length : Int) = b := by omega
  rw [e1, e2, max_eq_right hab, min_eq_left hab]

theorem segmentSlices_flatten (s : List Char) (indices : List Int) :
    ∀ (last : Int), 0 ≤ last → last ≤ (s.length : Int) →
      List.Chain (· ≤ ·) last indices → (∀ i ∈ indices, i ≤ (s.length : Int)) →
      (segmentSlices s indices last).flatten = s.drop last.toNat := by
  induction indices with
  | nil =>
    intro last h0 hlen _ _
    simp only [segmentSlices, List.flatten, segmentTextOf, List.append_nil]
    by_cases hge : last ≥ (s.length : Int)
    · have hll : last = (s.length : Int) := le_antisymm hlen hge
      rw [if_pos hge, hll]
      have e : ((s.length : Int)).toNat = s.length := by omega
      rw [e, List.drop_length]
    · rw [if_neg hge]
      push_neg at hge
      rw [jsSubstring_of_le s last _ h0 (le_of_lt hge) (le_refl _)]
      have e : ((s.length : Int)).toNat = s.length := by omega
      rw [e, List.take_length]
  | cons i rest ih =>
    intro last h0 hlen hchain hrange
    rcases List.chain_cons.mp hchain with ⟨hli, hchain2⟩
    have hi_len : i ≤ (s.length : Int) := hrange i (by simp)
    have h0i : 0 ≤ i := h0.trans hli
    have ihx := ih i h0i hi_len hchain2 (fun j hj => hrange j (by simp [hj]))
    simp only [segmentSlices, List.flatten_cons]
    rw [ihx]
    by_cases hdeg : last ≥ i
    · have hll : last = i := le_antisymm hli hdeg
      simp [segmentTextOf, hll]
    · rw [segmentTextOf, if_neg hdeg]
      push_neg at hdeg
      rw [jsSubstring_of_le s last i h0 (le_of_lt hdeg) hi_len]
      conv_rhs => rw [← List.take_append_drop i.toNat s]
      rw [List.drop_append_of_le_length]
      rw [List.length_take]
      omega

theorem infix_append_left (p : List Char) {x y : List Char} (h : x <:+: y) : x <:+: p ++ y := by
  rcases h with ⟨u, v, huv⟩
  exact ⟨p ++ u, v, by rw [← huv]; simp [List.append_assoc]⟩

theorem infix_append_right (q : List Char) {x y : List Char} (h : x <:+: y) : x <:+: y ++ q := by
  rcases h with ⟨u, v, huv⟩
  exact ⟨u, v ++ q, by rw [← huv]; simp [List.append_assoc]⟩

theorem infix_wrapIf (c : Bool) (p q : List Char) {x h : List Char} (hx : x <:+: h) :
    x <:+: wrapIf c p q h := by
  unfold wrapIf
  split
  · exact infix_append_right q (infix_append_left p hx)
  · exact hx

theorem infix_vertWrap (vo : Option VerticalAlign) {x h : List Char} (hx : x <:+: h) :
    x <:+: vertWrap vo h := by
  cases vo with
  | none => simpa [vertWrap] using hx
  | some va =>
    cases va <;> simp [vertWrap, verticalTextAlignmentDefined] <;>
      first
        | exact infix_append_right _ (infix_append_left _ hx)
        | exact infix_append_left _ (infix_append_right _ hx)
        | exact hx

theorem infix_spanWrap (styles : List (List Char)) {x h : List Char} (hx : x <:+: h) :
    x <:+: spanWrap styles h := by
  unfold spanWrap
  split
  · exact infix_append_right _ (infix_append_left _ hx)
  · exact hx

/-! The claims. -/

/-- C1: the claim states that `escapeHtml` replaces ampersand, less-than,
greater-than, double-quote and single-quote with their entity equivalents, so
that the escaped output contains no literal less-than, greater-than or
unescaped ampersand.  The source code does not do this: the replacement
strings for ampersand, less-than, greater-than and single-quote are the
matched characters themselves, and the double quote is replaced by the
five-character string ampersand-q-u-o-t.  This theorem evaluates the code at
the failing inputs: the reserved characters pass through unchanged. -/
theorem c1_escapeHtml_replacements_are_identity :
    escapeHtml (str "<") = str "<" ∧ escapeHtml (str ">") = str ">" ∧
    escapeHtml (str "&") = str "&" ∧ escapeHtml (str "\"") = str "&quot" ∧
    ltChar ∈ escapeHtml (str "<b>") ∧ gtChar ∈ escapeHtml (str "<b>") := by decide

/-- C2 counterexample: the run with text x and exactly bold, italic and link
URL set does not render with the anchor outermost and bold innermost; the
output differs from the string claimed in the spec. -/
theorem c2_counterexample :
    processTextSegment runX 0 1 ≠ str "<a href=\"http://u\"><em><strong>x</strong></em></a>" := by
  decide

/-- C2 amended: the fixed application order of `processTextSegment` wraps the
anchor first, so the anchor ends up innermost and bold outermost: the run
renders exactly as strong-outside-em-outside-anchor. -/
theorem c2_amended_anchor_innermost :
    processTextSegment runX 0 1 = str "<strong><em><a href=\"http://u\">x</a></em></strong>" := by
  decide

set_option maxRecDepth 40000 in
/-- C3 counterexample: for a level-0 bullet item followed by a level-0
numbered item, the markup between the first closing li and the second opening
li consists of two closing ul tags followed by the opening ol tag, not a
single closing ul: the next-sibling logic of the first item closes the list
and the open logic of the second item closes it a second time. -/
theorem c3_counterexample :
    (processListItem none (mkPara "a") 0 GlyphType.bullet
        (some (Element.listItem (mkPara "b") 0 GlyphType.number)) ++
      processListItem (some (Element.listItem (mkPara "a") 0 GlyphType.bullet))
        (mkPara "b") 0 GlyphType.number none =
      str "<ul style=\"margin-left: 0px; list-style-type: disc;\"><li style=\"margin-bottom: 0.5em;\">a</li></ul></ul><ol style=\"margin-left: 0px; list-style-type: decimal;\"><li style=\"margin-bottom: 0.5em;\">b</li></ol>") ∧
    countSub (str "</ul>")
      (processListItem none (mkPara "a") 0 GlyphType.bullet
          (some (Element.listItem (mkPara "b") 0 GlyphType.number)) ++
        processListItem (some (Element.listItem (mkPara "a") 0 GlyphType.bullet))
          (mkPara "b") 0 GlyphType.number none) = 2 := by decide

/-- C3 amended: for two consecutive sibling list items at nesting level 0,
the first with a bullet-family glyph and the second with an ordinal-family
glyph, the markup emitted between the closing li of the first item and the
opening li of the second item is exactly two closing ul tags immediately
followed by one opening ol tag. -/
theorem c3_amended (c1 c2 : ParagraphData) (g1 g2 : GlyphType)
    (h1 : isBulletFamily g1 = true) (h2 : isOrdinalFamily g2 = true) :
    processListItem none c1 0 g1 (some (Element.listItem c2 0 g2)) ++
      processListItem (some (Element.listItem c1 0 g1)) c2 0 g2 none =
    str "<ul style=\"margin-left: 0px; list-style-type: " ++ getGlyphStyle g1 ++
      str ";\"><li style=\"margin-bottom: 0.5em;\">" ++ convertParagraphToHtml c1 ++
      str "</li></ul></ul><ol style=\"margin-left: 0px; list-style-type: " ++ getGlyphStyle g2 ++
      str ";\"><li style=\"margin-bottom: 0.5em;\">" ++ convertParagraphToHtml c2 ++
      str "</li></ol>" := by
  simp [processListItem, listItemInfo, listTagOfOpt, listTag_of_bullet g1 h1,
    listTag_of_ordinal g2 h2, ul_ne_ol, ol_ne_ul, intZero_toString,
    List.append_assoc, str_append, str_append_assoc]

/-- C3 amended witness: the amended statement at a concrete bullet item
followed by a concrete numbered item. -/
theorem c3_amended_witness :
    processListItem none (mkPara "a") 0 GlyphType.bullet
        (some (Element.listItem (mkPara "b") 0 GlyphType.number)) ++
      processListItem (some (Element.listItem (mkPara "a") 0 GlyphType.bullet))
        (mkPara "b") 0 GlyphType.number none =
    str "<ul style=\"margin-left: 0px; list-style-type: " ++ getGlyphStyle GlyphType.bullet ++
      str ";\"><li style=\"margin-bottom: 0.5em;\">" ++ convertParagraphToHtml (mkPara "a") ++
      str "</li></ul></ul><ol style=\"margin-left: 0px; list-style-type: " ++
      getGlyphStyle GlyphType.number ++
      str ";\"><li style=\"margin-bottom: 0.5em;\">" ++ convertParagraphToHtml (mkPara "b") ++
      str "</li></ol>" :=
  c3_amended (mkPara "a") (mkPara "b") GlyphType.bullet GlyphType.number rfl rfl

/-- C4: run segmentation covers the full string: for every text string and
every strictly increasing, in-range list of boundary offsets, the
concatenation of the pre-escaping segment slices taken by
`convertTextToHtml` (the half-open slices between successive boundaries plus
the final trailing slice) equals the original string, with no gaps and no
overlaps. -/
theorem c4_segmentation_covers (s : List Char) (indices : List Int)
    (hmono : List.Chain' (· < ·) indices)
    (hrange : ∀ i ∈ indices, 0 ≤ i ∧ i ≤ (s.length : Int)) :
    (segmentSlices s indices 0).flatten = s := by
  have hchain : List.Chain (· ≤ ·) 0 indices := by
    rw [List.chain_iff_pairwise]
    refine List.Pairwise.cons (fun j hj => (hrange j hj).1) ?_
    exact (List.chain'_iff_pairwise.mp hmono).imp le_of_lt
  have h := segmentSlices_flatten s indices 0 (le_refl 0) (by positivity) hchain
    (fun i hi => (hrange i hi).2)
  simpa using h

/-- C4 witness: the segmentation of a concrete five-character string at the
boundary offsets one and three. -/
theorem c4_witness : (segmentSlices (str "abcde") [1, 3] 0).flatten = str "abcde" :=
  c4_segmentation_covers (str "abcde") [1, 3] (by simp [List.chain'_cons]) (by decide)

set_option maxRecDepth 40000 in
/-- C5 counterexample: three consecutive sibling level-0 bullet items that
carry the same text do not produce three li elements and a closing ul: the
duplicate-suppression guard of `convertBodyToHtml` skips the second and third
items, so the output contains exactly one opening ul, one li, and no closing
ul at all. -/
theorem c5_counterexample :
    convertBodyToHtml threeDupBody =
      str "<ul style=\"margin-left: 0px; list-style-type: disc;\"><li style=\"margin-bottom: 0.5em;\">a</li>" ∧
    countSub (str "<li") (convertBodyToHtml threeDupBody) = 1 ∧
    countSub (str "</ul>") (convertBodyToHtml threeDupBody) = 0 := by decide

/-- C5 amended: for three consecutive sibling list items with bullet-family
glyphs at nesting level 0 whose trimmed texts are pairwise distinct,
`convertBodyToHtml` produces exactly one opening ul (styled from the first
glyph), three li elements, and one closing ul. -/
theorem c5_amended (p1 p2 p3 : ParagraphData) (g1 g2 g3 : GlyphType)
    (hb1 : isBulletFamily g1 = true) (hb2 : isBulletFamily g2 = true)
    (hb3 : isBulletFamily g3 = true)
    (h12 : jsTrim (paragraphText p1) ≠ jsTrim (paragraphText p2))
    (h13 : jsTrim (paragraphText p1) ≠ jsTrim (paragraphText p3))
    (h23 : jsTrim (paragraphText p2) ≠ jsTrim (paragraphText p3)) :
    convertBodyToHtml [Element.listItem p1 0 g1, Element.listItem p2 0 g2,
      Element.listItem p3 0 g3] =
    str "<ul style=\"margin-left: 0px; list-style-type: " ++ getGlyphStyle g1 ++
      str ";\"><li style=\"margin-bottom: 0.5em;\">" ++ convertParagraphToHtml p1 ++
      str "</li><li style=\"margin-bottom: 0.5em;\">" ++ convertParagraphToHtml p2 ++
      str "</li><li style=\"margin-bottom: 0.5em;\">" ++ convertParagraphToHtml p3 ++
      str "</li></ul>" := by
  simp [convertBodyToHtml, convertBodyAux, processListItem, listItemInfo, listTagOfOpt,
    listTag_of_bullet g1 hb1, listTag_of_bullet g2 hb2, listTag_of_bullet g3 hb3,
    Ne.symm h12, Ne.symm h13, Ne.symm h23, intZero_toString, List.append_assoc,
    str_append, str_append_assoc]

/-- C5 amended witness: the amended statement at three concrete bullet items
with distinct texts. -/
theorem c5_amended_witness :
    convertBodyToHtml [Element.listItem (mkPara "a") 0 GlyphType.bullet,
      Element.listItem (mkPara "b") 0 GlyphType.bullet,
      Element.listItem (mkPara "c") 0 GlyphType.bullet] =
    str "<ul style=\"margin-left: 0px; list-style-type: " ++ getGlyphStyle GlyphType.bullet ++
      str ";\"><li style=\"margin-bottom: 0.5em;\">" ++ convertParagraphToHtml (mkPara "a") ++
      str "</li><li style=\"margin-bottom: 0.5em;\">" ++ convertParagraphToHtml (mkPara "b") ++
      str "</li><li style=\"margin-bottom: 0.5em;\">" ++ convertParagraphToHtml (mkPara "c") ++
      str "</li></ul>" :=
  c5_amended (mkPara "a") (mkPara "b") (mkPara "c")
    GlyphType.bullet GlyphType.bullet GlyphType.bullet rfl rfl rfl
    (by decide) (by decide) (by decide)

/-- C6: a paragraph whose full text is the empty string renders as the single
non-breaking-space character: not the empty string and not more than one
character. -/
theorem c6_empty_paragraph_nbsp (p : ParagraphData) (h : paragraphText p = []) :
    convertParagraphToHtml p = [nbspChar] ∧ (convertParagraphToHtml p).length = 1 := by
  simp [convertParagraphToHtml, h]

/-- C6 witness: the empty paragraph. -/
theorem c6_witness :
    convertParagraphToHtml {} = [nbspChar] ∧
      (convertParagraphToHtml ({} : ParagraphData)).length = 1 :=
  c6_empty_paragraph_nbsp {} rfl

/-- C7 counterexample: `escapeHtml` invoked on non-string values does not
fail: it returns the input unchanged, recording only that the warning branch
was taken.  This refutes the claim that non-string input surfaces as an
explicit failure rather than being returned unchanged. -/
theorem c7_counterexample :
    escapeHtmlJs (JsValue.number 5) = (JsValue.number 5, true) ∧
    escapeHtmlJs JsValue.null = (JsValue.null, true) := by decide

/-- C7 amended: for every non-string input, `escapeHtml` logs a warning and
returns the input unchanged; it neither raises an error nor rejects the
value. -/
theorem c7_amended (v : JsValue) (h : ∀ s, v ≠ JsValue.string s) :
    escapeHtmlJs v = (v, true) := by
  cases v with
  | string s => exact absurd rfl (h s)
  | number n => rfl
  | boolean b => rfl
  | null => rfl
  | undefined => rfl

/-- C7 amended witness: the undefined value passes through. -/
theorem c7_witness : escapeHtmlJs JsValue.undefined = (JsValue.undefined, true) :=
  c7_amended JsValue.undefined (fun _ h => JsValue.noConfusion h)

/-- C8: for every text element and every pair of segment offsets, including
non-monotonic and out-of-range ones, the segment renderer is total: a
degenerate range (start at or beyond the end offset) contributes empty
output, and the substring slice taken for any offsets is a contiguous infix
of the original text, never a negative-length or out-of-range fragment. -/
theorem c8_degenerate_ranges_guarded (te : TextElement) (a b : Int) :
    (a ≥ b → processTextSegment te a b = []) ∧ jsSubstring te.text a b <:+: te.text := by
  constructor
  · intro h
    simp [processTextSegment, h]
  · simp only [jsSubstring]
    exact (List.drop_suffix _ _).isInfix.trans (List.take_prefix _ _).isInfix

/-- C8 witness: a degenerate range on the junk-boundary element contributes
empty output and its slice is an infix of the text. -/
theorem c8_witness :
    processTextSegment junkRun 3 1 = [] ∧ jsSubstring junkRun.text 3 1 <:+: junkRun.text :=
  ⟨(c8_degenerate_ranges_guarded junkRun 3 1).1 (by decide),
    (c8_degenerate_ranges_guarded junkRun 3 1).2⟩

/-- C9: every glyph kind outside the three bullet kinds, including the
unrecognized one, selects the ordered-list container tag; the
`list-style-type` for an unrecognized glyph defaults to disc; and a list item
with an unrecognized glyph that starts and ends a run opens an ol container
styled with list-style-type disc. -/
theorem c9_unknown_glyph_ol_disc :
    (∀ g : GlyphType, isBulletFamily g = false → listTagOf g = str "ol") ∧
    getGlyphStyle GlyphType.other = str "disc" ∧
    (∀ c : ParagraphData, processListItem none c 0 GlyphType.other none =
      str "<ol style=\"margin-left: 0px; list-style-type: disc;\"><li style=\"margin-bottom: 0.5em;\">" ++
        convertParagraphToHtml c ++ str "</li></ol>") := by
  refine ⟨?_, rfl, ?_⟩
  · intro g h
    cases g <;> first | rfl | exact absurd h (by decide)
  · intro c
    simp [processListItem, listItemInfo, listTagOf, listTagOfOpt, getGlyphStyle,
      intZero_toString, List.append_assoc, str_append, str_append_assoc]

/-- C9 witness: the numbered glyph is not bullet-family and selects ol, and
the unknown-glyph run renders with the disc style for a concrete item. -/
theorem c9_witness :
    listTagOf GlyphType.number = str "ol" ∧
    processListItem none (mkPara "z") 0 GlyphType.other none =
      str "<ol style=\"margin-left: 0px; list-style-type: disc;\"><li style=\"margin-bottom: 0.5em;\">" ++
        convertParagraphToHtml (mkPara "z") ++ str "</li></ol>" :=
  ⟨c9_unknown_glyph_ol_disc.1 GlyphType.number rfl,
    c9_unknown_glyph_ol_disc.2.2 (mkPara "z")⟩

/-- C10: whenever the link URL attribute of the segment is set (and truthy),
the anchor open tag containing the URL verbatim, unescaped, is a contiguous
part of the rendered output; and for the concrete URL containing a double
quote, the rendered output contains that literal quote inside the href
attribute value, terminating the attribute early. -/
theorem c10_linkUrl_verbatim :
    (∀ (te : TextElement) (a b : Int) (u : List Char), a < b →
        (te.attrsAt a).linkUrl = some u → u ≠ [] →
        (str "<a href=\"" ++ u ++ str "\">") <:+: processTextSegment te a b) ∧
    processTextSegment quoteRun 0 1 = str "<a href=\"http://u\"v\">y</a>" := by
  constructor
  · intro te a b u hab hurl hne
    have hemp : u.isEmpty = false := by
      cases u with
      | nil => exact absurd rfl hne
      | cons hd tl => rfl
    simp only [processTextSegment, hurl]
    rw [if_neg (by omega)]
    simp only [jsTruthyStr, hemp, Bool.not_false, Option.getD_some]
    refine infix_spanWrap _ (infix_vertWrap _ (infix_wrapIf _ _ _ (infix_wrapIf _ _ _
      (infix_wrapIf _ _ _ (infix_wrapIf _ _ _ ?_)))))
    rw [wrapIf]
    simp only [if_true]
    exact ⟨[], escapeHtml (jsSubstring te.text a b) ++ str "</a>", by simp⟩
  · decide

/-- C10 witness: the anchor open tag with the verbatim URL occurs in the
rendering of the bold-italic-link run. -/
theorem c10_witness :
    (str "<a href=\"" ++ str "http://u" ++ str "\">") <:+: processTextSegment runX 0 1 :=
  c10_linkUrl_verbatim.1 runX 0 1 (str "http://u") (by decide) rfl (by decide)

end HRDoc
